import Mathlib

/-!
Verification of the task-management backend of this repository.

The repository contains two variants of the Convex backend functions for the
`tasks` table (schema: `taskBody : string`, `isCompleted : boolean`,
`user_id : string`, with an index `by_user_id`):

* the client-asserted variant (`src/convex/tasks.ts`): every operation takes a
  `user_id` argument supplied by the client, and mutations are gated by the
  helper `authorizeTaskAccess`;
* the server-derived variant (`unnamed/part_001`): every operation resolves the
  caller identity from the verified Clerk credential via
  `getAuthenticatedClerkId`, which splits `identity.tokenIdentifier` on the
  character `|` and takes index 1.

The document store is modelled as an association list from numeric ids to task
records together with a fresh-id counter; `db.insert` appends under the next
fresh id, `db.patch` updates the `isCompleted` field in place, `db.delete`
removes the record, and `db.get` looks a record up by id.  Fallible handlers
return `Except String`, the error value being the message of the thrown JS
`Error`.
-/

/-- A document of the `tasks` table, as declared in `src/convex/schema.ts`. -/
structure TaskDoc where
  taskBody : String
  isCompleted : Bool
  user_id : String
deriving Repr, DecidableEq

/-- The `tasks` collection of the Convex document store: stored documents keyed
by their id, plus the counter from which the next system-assigned id is drawn. -/
structure Db where
  recs : List (Nat × TaskDoc)
  nextId : Nat
deriving Repr, DecidableEq

/-- Model of `ctx.db.get(id)`: the stored document with this id, if any. -/
def dbGet (db : Db) (id : Nat) : Option TaskDoc :=
  (db.recs.find? (fun p => p.1 = id)).map (fun p => p.2)

/-- Model of `ctx.db.insert('tasks', t)`: store `t` under a fresh
system-assigned id. -/
def dbInsert (db : Db) (t : TaskDoc) : Db :=
  { recs := db.recs ++ [(db.nextId, t)], nextId := db.nextId + 1 }

/-- Model of `ctx.db.patch(id, { isCompleted })`: replace the `isCompleted`
field of the document with this id, leaving the other fields in place. -/
def dbPatch (db : Db) (id : Nat) (c : Bool) : Db :=
  { db with
    recs := db.recs.map (fun p =>
      if p.1 = id then (p.1, { p.2 with isCompleted := c }) else p) }

/-- Model of `ctx.db.delete(id)`: remove the document with this id. -/
def dbDelete (db : Db) (id : Nat) : Db :=
  { db with recs := db.recs.filter (fun p => p.1 ≠ id) }

/-- The empty store. -/
def dbEmpty : Db := { recs := [], nextId := 0 }

/-- Well-formedness of the store: every stored id was assigned by the counter,
hence is below `nextId`.  All operations preserve this. -/
def Db.WF (db : Db) : Prop := ∀ p ∈ db.recs, p.1 < db.nextId

instance (db : Db) : Decidable db.WF := by
  unfold Db.WF; infer_instance

namespace ClientTasks

/-- Embedding of `authorizeTaskAccess(ctx, taskId, userId)` from
`src/convex/tasks.ts`: fetch the task; throw `Task not found` if absent; throw
`Not authorized to access this task` if its `user_id` differs from the caller
argument; otherwise return the task. -/
def authorizeTaskAccess (db : Db) (taskId : Nat) (userId : String) :
    Except String TaskDoc :=
  match dbGet db taskId with
  | none => .error "Task not found"
  | some task =>
    if task.user_id ≠ userId then .error "Not authorized to access this task"
    else .ok task

/-- Embedding of the `get` query of `src/convex/tasks.ts`: collect the tasks
whose `user_id` equals the client-supplied `user_id` argument (the
`by_user_id` index filter). -/
def get (db : Db) (user_id : String) : List TaskDoc :=
  (db.recs.filter (fun p => p.2.user_id = user_id)).map (fun p => p.2)

/-- Embedding of the `create` mutation of `src/convex/tasks.ts`: insert a new
task with the given body, `isCompleted = false` and the client-supplied
`user_id`. -/
def create (db : Db) (body : String) (user_id : String) : Db :=
  dbInsert db { taskBody := body, isCompleted := false, user_id := user_id }

/-- Embedding of the `update` mutation of `src/convex/tasks.ts`: authorize,
then patch `isCompleted`. -/
def update (db : Db) (id : Nat) (isCompleted : Bool) (user_id : String) :
    Except String Db :=
  match authorizeTaskAccess db id user_id with
  | .error e => .error e
  | .ok _ => .ok (dbPatch db id isCompleted)

/-- Embedding of the `remove` mutation of `src/convex/tasks.ts`: authorize,
then delete. -/
def remove (db : Db) (id : Nat) (user_id : String) : Except String Db :=
  match authorizeTaskAccess db id user_id with
  | .error e => .error e
  | .ok _ => .ok (dbDelete db id)

/-- Embedding of the `restore` mutation of `src/convex/tasks.ts`: insert the
client-supplied task object (body, completion flag and `user_id`) verbatim. -/
def restore (db : Db) (task : TaskDoc) : Db :=
  dbInsert db task

/-- Embedding of the undo action built by `toasts.taskDeleted` in
`src/lib/utils/toasts.ts`: it invokes `restore` with the deleted task's
`taskBody` and `isCompleted` from the held snapshot and with the acting
caller's `user_id` (the separate `user_id` argument of `taskDeleted`, not the
snapshot's own `user_id` field). -/
def restoreViaUndo (db : Db) (task : TaskDoc) (user_id : String) : Db :=
  restore db
    { taskBody := task.taskBody, isCompleted := task.isCompleted,
      user_id := user_id }

end ClientTasks

/-- Model of the JavaScript `s.split(sep)` for a single-character separator,
over the character list of `s`: the (possibly empty) pieces between
occurrences of the separator, in order; splitting the empty string yields
`[""]`. -/
def jsSplit (sep : Char) : List Char → List (List Char)
  | [] => [[]]
  | c :: rest =>
    if c = sep then [] :: jsSplit sep rest
    else
      match jsSplit sep rest with
      | [] => [[c]]
      | h :: t => (c :: h) :: t

/-- The verified credential attached by Clerk, as seen through
`ctx.auth.getUserIdentity()`: we retain the one field the code reads,
`tokenIdentifier`. -/
structure UserIdentity where
  tokenIdentifier : String
deriving Repr, DecidableEq

namespace ServerTasks

/-- Embedding of `getAuthenticatedClerkId` from `unnamed/part_001`: if no
identity is present, throw `Not authenticated`; otherwise return
`identity.tokenIdentifier.split('|')[1]`.  Indexing past the end of a JS array
yields `undefined`, modelled by `Option String` with `none` for `undefined`;
no error is raised in that case. -/
def getAuthenticatedClerkId (identity : Option UserIdentity) :
    Except String (Option String) :=
  match identity with
  | none => .error "Not authenticated"
  | some ident =>
    .ok (((jsSplit (Char.ofNat 124) ident.tokenIdentifier.data).get? 1).map
      List.asString)

/-- Model of inserting into the `tasks` table under `schemaValidation: true`
(`src/convex/schema.ts`): `user_id` is declared `v.string()`, so a document
whose `user_id` is `undefined` is rejected by the validator; otherwise the
document is stored under a fresh id. -/
def dbInsertChecked (db : Db) (taskBody : String) (isCompleted : Bool)
    (uid : Option String) : Except String Db :=
  match uid with
  | some u =>
    .ok (dbInsert db
      { taskBody := taskBody, isCompleted := isCompleted, user_id := u })
  | none => .error "Validator error"

/-- Embedding of the `get` query of `unnamed/part_001`: resolve the caller id,
then collect the tasks whose stored `user_id` equals it (a stored string never
equals an `undefined` resolved id). -/
def get (identity : Option UserIdentity) (db : Db) :
    Except String (List TaskDoc) :=
  match getAuthenticatedClerkId identity with
  | .error e => .error e
  | .ok clerkUserId =>
    .ok ((db.recs.filter (fun p => some p.2.user_id = clerkUserId)).map
      (fun p => p.2))

/-- Embedding of the `create` mutation of `unnamed/part_001`: resolve the
caller id, then insert a new task with `isCompleted = false` and
`user_id = clerkUserId`. -/
def create (identity : Option UserIdentity) (db : Db) (body : String) :
    Except String Db :=
  match getAuthenticatedClerkId identity with
  | .error e => .error e
  | .ok clerkUserId => dbInsertChecked db body false clerkUserId

/-- Embedding of the `update` mutation of `unnamed/part_001`: resolve the
caller id, fetch the task, and throw the single message
`Not authorized to update this task` when the task is missing or its
`user_id` differs from the resolved id; otherwise patch `isCompleted`. -/
def update (identity : Option UserIdentity) (db : Db) (id : Nat)
    (isCompleted : Bool) : Except String Db :=
  match getAuthenticatedClerkId identity with
  | .error e => .error e
  | .ok clerkUserId =>
    match dbGet db id with
    | none => .error "Not authorized to update this task"
    | some task =>
      if some task.user_id ≠ clerkUserId then
        .error "Not authorized to update this task"
      else .ok (dbPatch db id isCompleted)

/-- Embedding of the `remove` mutation of `unnamed/part_001`: resolve the
caller id, fetch the task, and throw the single message
`Not authorized to delete this task` when the task is missing or its
`user_id` differs from the resolved id; otherwise delete it. -/
def remove (identity : Option UserIdentity) (db : Db) (id : Nat) :
    Except String Db :=
  match getAuthenticatedClerkId identity with
  | .error e => .error e
  | .ok clerkUserId =>
    match dbGet db id with
    | none => .error "Not authorized to delete this task"
    | some task =>
      if some task.user_id ≠ clerkUserId then
        .error "Not authorized to delete this task"
      else .ok (dbDelete db id)

/-- Embedding of the `restore` mutation of `unnamed/part_001`: resolve the
caller id, then insert the snapshot body and completion flag with
`user_id = clerkUserId` (the acting caller). -/
def restore (identity : Option UserIdentity) (db : Db) (taskBody : String)
    (isCompleted : Bool) : Except String Db :=
  match getAuthenticatedClerkId identity with
  | .error e => .error e
  | .ok clerkUserId => dbInsertChecked db taskBody isCompleted clerkUserId

end ServerTasks

/-! Lemmas about the document-store model. -/

theorem find?_key_eq_none_of_WF (db : Db) (h : db.WF) (j : Nat)
    (hj : db.nextId ≤ j) : db.recs.find? (fun p => p.1 = j) = none := by
  refine List.find?_eq_none.mpr (fun p hp => ?_)
  have := h p hp
  simp only [decide_eq_true_eq]
  omega

theorem dbGet_eq_none_of_WF (db : Db) (h : db.WF) (j : Nat)
    (hj : db.nextId ≤ j) : dbGet db j = none := by
  unfold dbGet
  rw [find?_key_eq_none_of_WF db h j hj]
  rfl

theorem dbGet_dbInsert_self (db : Db) (h : db.WF) (t : TaskDoc) :
    dbGet (dbInsert db t) db.nextId = some t := by
  unfold dbGet dbInsert
  rw [List.find?_append, find?_key_eq_none_of_WF db h db.nextId le_rfl]
  simp [List.find?]

theorem dbGet_dbInsert_ne (db : Db) (t : TaskDoc) (j : Nat)
    (hj : j ≠ db.nextId) : dbGet (dbInsert db t) j = dbGet db j := by
  unfold dbGet dbInsert
  rw [List.find?_append]
  have h1 : List.find? (fun p => p.1 = j) [(db.nextId, t)] = none := by
    simp [List.find?, Ne.symm hj]
  rw [h1]
  simp

theorem dbGet_dbPatch (db : Db) (id : Nat) (c : Bool) (j : Nat) :
    dbGet (dbPatch db id c) j =
      (dbGet db j).map
        (fun t => if j = id then { t with isCompleted := c } else t) := by
  unfold dbGet dbPatch
  simp only
  rw [List.find?_map]
  have hpf : ((fun p : Nat × TaskDoc => decide (p.1 = j)) ∘
      (fun p : Nat × TaskDoc =>
        if p.1 = id then (p.1, { p.2 with isCompleted := c }) else p)) =
      (fun p : Nat × TaskDoc => decide (p.1 = j)) := by
    funext p
    by_cases h : p.1 = id <;> simp [h]
  rw [hpf]
  cases hfind : db.recs.find? (fun p => decide (p.1 = j)) with
  | none => rfl
  | some e =>
    have he : e.1 = j := by simpa using List.find?_some hfind
    by_cases hj : j = id
    · simp [he, hj]
    · simp [he, hj]

theorem find?_key_filter (l : List (Nat × TaskDoc)) (id j : Nat) :
    ((l.filter (fun p => p.1 ≠ id)).find? (fun p => p.1 = j)) =
      if j = id then none else l.find? (fun p => p.1 = j) := by
  induction l with
  | nil => simp
  | cons a l ih =>
    by_cases ha : a.1 = id <;> by_cases haj : a.1 = j <;>
      by_cases hj : j = id <;>
      simp_all [List.filter_cons, List.find?_cons]

theorem dbGet_dbDelete (db : Db) (id : Nat) (j : Nat) :
    dbGet (dbDelete db id) j = if j = id then none else dbGet db j := by
  unfold dbGet dbDelete
  simp only
  rw [find?_key_filter]
  by_cases hj : j = id <;> simp [hj]

theorem dbPatch_dbPatch (db : Db) (id : Nat) (c : Bool) :
    dbPatch (dbPatch db id c) id c = dbPatch db id c := by
  unfold dbPatch
  simp only [List.map_map]
  have hff : ((fun p : Nat × TaskDoc =>
        if p.1 = id then (p.1, { p.2 with isCompleted := c }) else p) ∘
      (fun p : Nat × TaskDoc =>
        if p.1 = id then (p.1, { p.2 with isCompleted := c }) else p)) =
      (fun p : Nat × TaskDoc =>
        if p.1 = id then (p.1, { p.2 with isCompleted := c }) else p) := by
    funext p
    by_cases h : p.1 = id <;> simp [Function.comp, h]
  rw [hff]

theorem WF_dbInsert (db : Db) (t : TaskDoc) (h : db.WF) : (dbInsert db t).WF := by
  intro p hp
  have hp2 : p ∈ db.recs ++ [(db.nextId, t)] := hp
  show p.1 < db.nextId + 1
  rcases List.mem_append.mp hp2 with hmem | hmem
  · exact Nat.lt_succ_of_lt (h p hmem)
  · simp only [List.mem_singleton] at hmem
    subst hmem
    omega

theorem WF_dbPatch (db : Db) (id : Nat) (c : Bool) (h : db.WF) :
    (dbPatch db id c).WF := by
  intro p hp
  have hp2 : p ∈ db.recs.map (fun p : Nat × TaskDoc =>
      if p.1 = id then (p.1, { p.2 with isCompleted := c }) else p) := hp
  show p.1 < db.nextId
  simp only [List.mem_map] at hp2
  obtain ⟨q, hq, hqp⟩ := hp2
  have := h q hq
  by_cases hk : q.1 = id <;> simp [hk] at hqp <;> subst hqp <;> simp_all

theorem WF_dbDelete (db : Db) (id : Nat) (h : db.WF) : (dbDelete db id).WF := by
  intro p hp
  exact h p (List.mem_of_mem_filter hp)

/-! Lemmas about the model of the JavaScript split. -/

theorem jsSplit_ne_nil (sep : Char) (l : List Char) : jsSplit sep l ≠ [] := by
  cases l with
  | nil => simp [jsSplit]
  | cons c rest =>
    simp only [jsSplit]
    by_cases h : c = sep
    · simp [h]
    · simp only [if_neg h]
      cases jsSplit sep rest <;> simp

theorem jsSplit_no_sep (sep : Char) (l : List Char) (h : sep ∉ l) :
    jsSplit sep l = [l] := by
  induction l with
  | nil => rfl
  | cons c rest ih =>
    have hc : ¬ c = sep := fun hcs => h (hcs ▸ List.mem_cons_self c rest)
    have hr : sep ∉ rest := fun hm => h (List.mem_cons_of_mem _ hm)
    simp only [jsSplit, if_neg hc, ih hr]

theorem jsSplit_sep_append (sep : Char) (pre rest : List Char)
    (h : sep ∉ pre) :
    jsSplit sep (pre ++ sep :: rest) = pre :: jsSplit sep rest := by
  induction pre with
  | nil => simp [jsSplit]
  | cons c p ih =>
    have hc : ¬ c = sep := fun hcs => h (hcs ▸ List.mem_cons_self c p)
    have hp : sep ∉ p := fun hm => h (List.mem_cons_of_mem _ hm)
    simp only [List.cons_append, jsSplit, if_neg hc, List.append_eq, ih hp]

/-- C1: the authorization gate fetches the record by id; fails with the
NotFound message when no record exists for that id; fails with the Forbidden
message when the record exists but its owner field differs from the caller id;
and otherwise returns the record. -/
theorem authorizeTaskAccess_cases (db : Db) (id : Nat) (u : String) :
    (dbGet db id = none →
      ClientTasks.authorizeTaskAccess db id u = .error "Task not found") ∧
    (∀ t, dbGet db id = some t → t.user_id ≠ u →
      ClientTasks.authorizeTaskAccess db id u =
        .error "Not authorized to access this task") ∧
    (∀ t, dbGet db id = some t → t.user_id = u →
      ClientTasks.authorizeTaskAccess db id u = .ok t) := by
  refine ⟨fun h => ?_, fun t h hne => ?_, fun t h he => ?_⟩
  · simp [ClientTasks.authorizeTaskAccess, h]
  · simp [ClientTasks.authorizeTaskAccess, h, hne]
  · simp [ClientTasks.authorizeTaskAccess, h, he]

/-- Witness for C1: a concrete store with one task owned by `u1`; the gate
returns the task for `u1`, rejects `u2` with the Forbidden message, and
rejects a missing id with the NotFound message. -/
theorem authorizeTaskAccess_cases_witness :
    (ClientTasks.authorizeTaskAccess
        { recs := [(0, ⟨"buy milk", false, "u1"⟩)], nextId := 1 } 7 "u1" =
      .error "Task not found") ∧
    (ClientTasks.authorizeTaskAccess
        { recs := [(0, ⟨"buy milk", false, "u1"⟩)], nextId := 1 } 0 "u2" =
      .error "Not authorized to access this task") ∧
    (ClientTasks.authorizeTaskAccess
        { recs := [(0, ⟨"buy milk", false, "u1"⟩)], nextId := 1 } 0 "u1" =
      .ok ⟨"buy milk", false, "u1"⟩) :=
  ⟨(authorizeTaskAccess_cases _ 7 "u1").1 (by decide),
   (authorizeTaskAccess_cases _ 0 "u2").2.1 ⟨"buy milk", false, "u1"⟩
     (by decide) (by decide),
   (authorizeTaskAccess_cases _ 0 "u1").2.2 ⟨"buy milk", false, "u1"⟩
     (by decide) rfl⟩

/-- C2 counterexample: in the client-asserted variant the list query filters
only by the supplied `user_id`, with no check against the caller's credential —
with a store holding one task owned by `u2`, a caller whose own resolved
identity is `u1` who supplies `u2` as the argument receives the record owned
by `u2`, a record whose owner field differs from the caller's identity. -/
theorem client_get_cross_user :
    ClientTasks.get
        { recs := [(0, ⟨"buy milk", false, "u2"⟩)], nextId := 1 } "u2" =
      [⟨"buy milk", false, "u2"⟩] ∧ ("u2" : String) ≠ "u1" :=
  ⟨rfl, by decide⟩

/-- C2 amended: the client-asserted list query returns exactly the records
whose owner field equals the client-supplied id, with no check against the
caller's credential — so a caller who passes a different user's id observes
that user's records.  The server-derived operations are scoped to the
resolved identity: list returns only records owned by the resolved id, and
update and delete succeed only on a record owned by the resolved id. -/
theorem ownership_scoping :
    (∀ db u t, t ∈ ClientTasks.get db u → t.user_id = u) ∧
    (∀ db u p, p ∈ Db.recs db → p.2.user_id = u →
      p.2 ∈ ClientTasks.get db u) ∧
    (∀ ident db uid l,
      ServerTasks.getAuthenticatedClerkId ident = .ok (some uid) →
      ServerTasks.get ident db = .ok l → ∀ t ∈ l, t.user_id = uid) ∧
    (∀ ident db uid id c db2,
      ServerTasks.getAuthenticatedClerkId ident = .ok (some uid) →
      ServerTasks.update ident db id c = .ok db2 →
      ∃ t, dbGet db id = some t ∧ t.user_id = uid) ∧
    (∀ ident db uid id db2,
      ServerTasks.getAuthenticatedClerkId ident = .ok (some uid) →
      ServerTasks.remove ident db id = .ok db2 →
      ∃ t, dbGet db id = some t ∧ t.user_id = uid) := by
  refine ⟨?_, ?_, ?_, ?_, ?_⟩
  · intro db u t ht
    simp only [ClientTasks.get, List.mem_map, List.mem_filter] at ht
    obtain ⟨p, ⟨_, hp⟩, hpt⟩ := ht
    subst hpt
    simpa using hp
  · intro db u p hp hu
    simp only [ClientTasks.get, List.mem_map, List.mem_filter]
    exact ⟨p, ⟨hp, by simpa using hu⟩, rfl⟩
  · intro ident db uid l hres hget t ht
    unfold ServerTasks.get at hget
    rw [hres] at hget
    simp only [Except.ok.injEq] at hget
    subst hget
    simp only [List.mem_map, List.mem_filter] at ht
    obtain ⟨p, ⟨_, hp⟩, hpt⟩ := ht
    subst hpt
    simpa using hp
  · intro ident db uid id c db2 hres hup
    unfold ServerTasks.update at hup
    rw [hres] at hup
    cases hget : dbGet db id with
    | none => rw [hget] at hup; simp at hup
    | some task =>
      rw [hget] at hup
      by_cases howner : task.user_id = uid
      · exact ⟨task, rfl, howner⟩
      · simp [howner] at hup
  · intro ident db uid id db2 hres hrm
    unfold ServerTasks.remove at hrm
    rw [hres] at hrm
    cases hget : dbGet db id with
    | none => rw [hget] at hrm; simp at hrm
    | some task =>
      rw [hget] at hrm
      by_cases howner : task.user_id = uid
      · exact ⟨task, rfl, howner⟩
      · simp [howner] at hrm

/-- Witness for C2 (amended): a store with one task each for `u1` and `u2`;
`u1`'s record is returned to whoever supplies `u1`; the resolved caller
`iss|u1` lists and updates only records owned by `u1`. -/
theorem ownership_scoping_witness :
    (TaskDoc.user_id ⟨"a", false, "u1"⟩ = "u1") ∧
    ((⟨"a", false, "u1"⟩ : TaskDoc) ∈ ClientTasks.get
      { recs := [(0, ⟨"a", false, "u1"⟩), (1, ⟨"b", true, "u2"⟩)],
        nextId := 2 } "u1") ∧
    (∃ t, dbGet
      { recs := [(0, ⟨"a", false, "u1"⟩), (1, ⟨"b", true, "u2"⟩)],
        nextId := 2 } 0 = some t ∧ t.user_id = "u1") := by
  refine ⟨?_, ?_, ?_⟩
  · exact ownership_scoping.1
      { recs := [(0, ⟨"a", false, "u1"⟩), (1, ⟨"b", true, "u2"⟩)],
        nextId := 2 } "u1" ⟨"a", false, "u1"⟩ (by decide)
  · exact ownership_scoping.2.1
      { recs := [(0, ⟨"a", false, "u1"⟩), (1, ⟨"b", true, "u2"⟩)],
        nextId := 2 } "u1" (0, ⟨"a", false, "u1"⟩) (by decide) (by decide)
  · exact ownership_scoping.2.2.2.1 (some ⟨"iss|u1"⟩)
      { recs := [(0, ⟨"a", false, "u1"⟩), (1, ⟨"b", true, "u2"⟩)],
        nextId := 2 } "u1" 0 true
      (dbPatch
        { recs := [(0, ⟨"a", false, "u1"⟩), (1, ⟨"b", true, "u2"⟩)],
          nextId := 2 } 0 true)
      rfl rfl

/-- C3: every restore path stamps the acting caller as owner: the
server-derived restore inserts the snapshot body and completion flag with
`user_id` equal to the resolved caller id, and the client-asserted undo action
built by `toasts.taskDeleted` passes the acting caller's `user_id` argument,
not the snapshot's original owner field. -/
theorem restore_stamps_acting_caller :
    (∀ ident db body c uid,
      ServerTasks.getAuthenticatedClerkId ident = .ok (some uid) →
      ServerTasks.restore ident db body c =
        .ok (dbInsert db ⟨body, c, uid⟩)) ∧
    (∀ db task u, ClientTasks.restoreViaUndo db task u =
      dbInsert db ⟨task.taskBody, task.isCompleted, u⟩) := by
  constructor
  · intro ident db body c uid hres
    unfold ServerTasks.restore
    rw [hres]
    rfl
  · intro db task u
    rfl

/-- Witness for C3: the resolved caller `iss|u1` restoring a snapshot
originally owned by `orig` produces a record owned by `u1`; likewise the undo
action with acting caller `u1` stamps `u1`, not `orig`. -/
theorem restore_stamps_acting_caller_witness :
    (ServerTasks.restore (some ⟨"iss|u1"⟩) dbEmpty "buy milk" false =
      .ok (dbInsert dbEmpty ⟨"buy milk", false, "u1"⟩)) ∧
    (ClientTasks.restoreViaUndo dbEmpty ⟨"buy milk", false, "orig"⟩ "u1" =
      dbInsert dbEmpty ⟨"buy milk", false, "u1"⟩) :=
  ⟨restore_stamps_acting_caller.1 (some ⟨"iss|u1"⟩) dbEmpty "buy milk" false
      "u1" rfl,
   restore_stamps_acting_caller.2 dbEmpty ⟨"buy milk", false, "orig"⟩ "u1"⟩

/-- C4 counterexample: in the server-derived variant the NotFound and
Forbidden cases are not distinguished in the error message — an update
targeting a missing id (empty store) and an update targeting a record owned
by a different caller both fail with the identical message
`Not authorized to update this task`, and no not-found message exists on this
path. -/
theorem server_update_single_message :
    ServerTasks.update (some ⟨"iss|u1"⟩) dbEmpty 0 true =
        .error "Not authorized to update this task" ∧
    ServerTasks.update (some ⟨"iss|u1"⟩)
        { recs := [(0, ⟨"buy milk", false, "u2"⟩)], nextId := 1 } 0 true =
      .error "Not authorized to update this task" :=
  ⟨rfl, rfl⟩

/-- C4 amended: an update or delete targeting a missing record id fails — in
the gated client-asserted variant with the message `Task not found`, which
differs from the Forbidden message `Not authorized to access this task`; in
the server-derived variant both update and delete fail with their single
shared message, so the missing-record case is not distinguished there from
the foreign-owner case. -/
theorem update_delete_missing (db : Db) (id : Nat) (c : Bool) (u : String)
    (h : dbGet db id = none) :
    ClientTasks.update db id c u = .error "Task not found" ∧
    ClientTasks.remove db id u = .error "Task not found" ∧
    ("Task not found" : String) ≠ "Not authorized to access this task" ∧
    (∀ ident uid, ServerTasks.getAuthenticatedClerkId ident = .ok uid →
      ServerTasks.update ident db id c =
          .error "Not authorized to update this task" ∧
      ServerTasks.remove ident db id =
          .error "Not authorized to delete this task") := by
  refine ⟨?_, ?_, by decide, ?_⟩
  · unfold ClientTasks.update ClientTasks.authorizeTaskAccess
    rw [h]
  · unfold ClientTasks.remove ClientTasks.authorizeTaskAccess
    rw [h]
  · intro ident uid hres
    constructor
    · unfold ServerTasks.update
      rw [hres, h]
    · unfold ServerTasks.remove
      rw [hres, h]

/-- Witness for C4 (amended): on the empty store, all four mutations fail at
id 0 with the stated messages. -/
theorem update_delete_missing_witness :
    ClientTasks.update dbEmpty 0 true "u1" = .error "Task not found" ∧
    ClientTasks.remove dbEmpty 0 "u1" = .error "Task not found" ∧
    ServerTasks.update (some ⟨"iss|u1"⟩) dbEmpty 0 true =
        .error "Not authorized to update this task" ∧
    ServerTasks.remove (some ⟨"iss|u1"⟩) dbEmpty 0 =
        .error "Not authorized to delete this task" := by
  have h := update_delete_missing dbEmpty 0 true "u1" rfl
  exact ⟨h.1, h.2.1, (h.2.2.2 (some ⟨"iss|u1"⟩) (some "u1") rfl).1,
    (h.2.2.2 (some ⟨"iss|u1"⟩) (some "u1") rfl).2⟩

/-- C5: an update attempt by a caller who is not the record's owner fails with
the Forbidden outcome in both variants, and the mutation result carries no new
store — the authorization check is read-only (it returns the record without
writing) and the patch runs only after a successful authorization, so the
storage state for the record is unchanged. -/
theorem update_foreign_unchanged (db : Db) (id : Nat) (c : Bool)
    (t : TaskDoc) (ht : dbGet db id = some t) :
    (∀ u, t.user_id ≠ u →
      ClientTasks.update db id c u =
          .error "Not authorized to access this task" ∧
      ∀ db2, ClientTasks.update db id c u ≠ .ok db2) ∧
    (∀ ident uid, ServerTasks.getAuthenticatedClerkId ident = .ok uid →
      some t.user_id ≠ uid →
      ServerTasks.update ident db id c =
          .error "Not authorized to update this task" ∧
      ∀ db2, ServerTasks.update ident db id c ≠ .ok db2) := by
  constructor
  · intro u hu
    have herr : ClientTasks.update db id c u =
        .error "Not authorized to access this task" := by
      unfold ClientTasks.update ClientTasks.authorizeTaskAccess
      rw [ht]
      simp [hu]
    exact ⟨herr, fun db2 hok => by rw [herr] at hok; cases hok⟩
  · intro ident uid hres hne
    have herr : ServerTasks.update ident db id c =
        .error "Not authorized to update this task" := by
      unfold ServerTasks.update
      rw [hres, ht]
      simp [hne]
    exact ⟨herr, fun db2 hok => by rw [herr] at hok; cases hok⟩

/-- Witness for C5: caller `u2` attempting to update the task owned by `u1`
fails with the Forbidden message in the client-asserted variant, and the
resolved caller `iss|u2` fails likewise in the server-derived variant. -/
theorem update_foreign_unchanged_witness :
    ClientTasks.update
        { recs := [(0, ⟨"buy milk", false, "u1"⟩)], nextId := 1 } 0 true "u2" =
      .error "Not authorized to access this task" ∧
    ServerTasks.update (some ⟨"iss|u2"⟩)
        { recs := [(0, ⟨"buy milk", false, "u1"⟩)], nextId := 1 } 0 true =
      .error "Not authorized to update this task" := by
  have h := update_foreign_unchanged
    { recs := [(0, ⟨"buy milk", false, "u1"⟩)], nextId := 1 } 0 true
    ⟨"buy milk", false, "u1"⟩ rfl
  exact ⟨(h.1 "u2" (by decide)).1,
    (h.2 (some ⟨"iss|u2"⟩) (some "u2") rfl (by decide)).1⟩

theorem dbGet_some_lt (db : Db) (h : db.WF) (id : Nat) (t : TaskDoc)
    (ht : dbGet db id = some t) : id < db.nextId := by
  unfold dbGet at ht
  cases hfind : db.recs.find? (fun p => p.1 = id) with
  | none => rw [hfind] at ht; cases ht
  | some e =>
    have hm := List.mem_of_find?_eq_some hfind
    have he : e.1 = id := by simpa using List.find?_some hfind
    have := h e hm
    omega

/-- C6: deleting a record and then restoring the snapshot captured at deletion
(via the undo action of `toasts.taskDeleted`) produces a record with the same
body and completed value as the original, stored under a new id distinct from
the deleted record's id. -/
theorem delete_restore_roundtrip (db : Db) (h : db.WF) (id : Nat)
    (t : TaskDoc) (ht : dbGet db id = some t) (u : String)
    (hu : t.user_id = u) :
    ∃ db2, ClientTasks.remove db id u = .ok db2 ∧
      dbGet (ClientTasks.restoreViaUndo db2 t u) db2.nextId =
        some ⟨t.taskBody, t.isCompleted, u⟩ ∧
      db2.nextId ≠ id := by
  have hid : id < db.nextId := dbGet_some_lt db h id t ht
  refine ⟨dbDelete db id, ?_, ?_, ?_⟩
  · unfold ClientTasks.remove ClientTasks.authorizeTaskAccess
    rw [ht]
    simp [hu]
  · have hwf2 : (dbDelete db id).WF := WF_dbDelete db id h
    exact dbGet_dbInsert_self (dbDelete db id) hwf2
      ⟨t.taskBody, t.isCompleted, u⟩
  · show db.nextId ≠ id
    omega

/-- Witness for C6: `u1` deletes their only task and the undo action restores
a record with the same body and flag under the fresh id 1 ≠ 0. -/
theorem delete_restore_roundtrip_witness :
    ∃ db2, ClientTasks.remove
        { recs := [(0, ⟨"buy milk", false, "u1"⟩)], nextId := 1 } 0 "u1" =
        .ok db2 ∧
      dbGet (ClientTasks.restoreViaUndo db2 ⟨"buy milk", false, "u1"⟩ "u1")
          db2.nextId =
        some ⟨"buy milk", false, "u1"⟩ ∧
      db2.nextId ≠ 0 :=
  delete_restore_roundtrip
    { recs := [(0, ⟨"buy milk", false, "u1"⟩)], nextId := 1 } (by decide)
    0 ⟨"buy milk", false, "u1"⟩ rfl "u1" rfl

/-- C7: create inserts exactly one new record, with `completed = false` and
the caller's id as owner, under a fresh system-assigned id that was not in
use, leaving every pre-existing record unchanged; the server-derived create
performs the same insertion with the resolved caller id. -/
theorem create_fresh (db : Db) (h : db.WF) (body u : String) :
    dbGet db db.nextId = none ∧
    dbGet (ClientTasks.create db body u) db.nextId = some ⟨body, false, u⟩ ∧
    (∀ j, j ≠ db.nextId → dbGet (ClientTasks.create db body u) j =
      dbGet db j) ∧
    (ClientTasks.create db body u).recs.length = db.recs.length + 1 ∧
    (∀ ident uid, ServerTasks.getAuthenticatedClerkId ident = .ok (some uid) →
      ServerTasks.create ident db body = .ok (ClientTasks.create db body uid)) := by
  refine ⟨dbGet_eq_none_of_WF db h db.nextId le_rfl, ?_, ?_, ?_, ?_⟩
  · exact dbGet_dbInsert_self db h ⟨body, false, u⟩
  · intro j hj
    exact dbGet_dbInsert_ne db ⟨body, false, u⟩ j hj
  · show (db.recs ++ [(db.nextId, _)]).length = db.recs.length + 1
    simp
  · intro ident uid hres
    unfold ServerTasks.create
    rw [hres]
    rfl

/-- Witness for C7: creating `buy milk` for `u1` on a one-record store adds
the record under the fresh id 1 and leaves the record at id 0 unchanged. -/
theorem create_fresh_witness :
    dbGet { recs := [(0, ⟨"a", true, "u9"⟩)], nextId := 1 } 1 = none ∧
    dbGet (ClientTasks.create
        { recs := [(0, ⟨"a", true, "u9"⟩)], nextId := 1 } "buy milk" "u1") 1 =
      some ⟨"buy milk", false, "u1"⟩ ∧
    dbGet (ClientTasks.create
        { recs := [(0, ⟨"a", true, "u9"⟩)], nextId := 1 } "buy milk" "u1") 0 =
      dbGet { recs := [(0, ⟨"a", true, "u9"⟩)], nextId := 1 } 0 ∧
    ServerTasks.create (some ⟨"iss|u1"⟩)
        { recs := [(0, ⟨"a", true, "u9"⟩)], nextId := 1 } "buy milk" =
      .ok (ClientTasks.create
        { recs := [(0, ⟨"a", true, "u9"⟩)], nextId := 1 } "buy milk" "u1") := by
  have h := create_fresh { recs := [(0, ⟨"a", true, "u9"⟩)], nextId := 1 }
    (by decide) "buy milk" "u1"
  exact ⟨h.1, h.2.1, h.2.2.1 0 (by decide),
    h.2.2.2.2 (some ⟨"iss|u1"⟩) "u1" rfl⟩

/-- C8: for a record owned by the caller, update is idempotent — running it a
second time with the same completed value succeeds and returns the very same
store — and it modifies only the `isCompleted` field of the targeted record,
preserving its body and owner and leaving every other record unchanged. -/
theorem update_idempotent (db : Db) (id : Nat) (c : Bool) (u : String)
    (t : TaskDoc) (ht : dbGet db id = some t) (hu : t.user_id = u) :
    ∃ db2, ClientTasks.update db id c u = .ok db2 ∧
      ClientTasks.update db2 id c u = .ok db2 ∧
      dbGet db2 id = some ⟨t.taskBody, c, t.user_id⟩ ∧
      (∀ j, j ≠ id → dbGet db2 j = dbGet db j) := by
  refine ⟨dbPatch db id c, ?_, ?_, ?_, ?_⟩
  · unfold ClientTasks.update ClientTasks.authorizeTaskAccess
    rw [ht]
    simp [hu]
  · have hget2 : dbGet (dbPatch db id c) id = some { t with isCompleted := c } := by
      rw [dbGet_dbPatch, ht]
      simp
    unfold ClientTasks.update ClientTasks.authorizeTaskAccess
    rw [hget2]
    simp only [hu]
    simp [dbPatch_dbPatch]
  · rw [dbGet_dbPatch, ht]
    simp
  · intro j hj
    rw [dbGet_dbPatch]
    cases dbGet db j <;> simp [hj]

/-- Witness for C8: updating `u1`'s task at id 0 to completed twice yields the
same store as once, with the body and owner preserved. -/
theorem update_idempotent_witness :
    ∃ db2, ClientTasks.update
        { recs := [(0, ⟨"buy milk", false, "u1"⟩), (1, ⟨"b", true, "u2"⟩)],
          nextId := 2 } 0 true "u1" = .ok db2 ∧
      ClientTasks.update db2 0 true "u1" = .ok db2 ∧
      dbGet db2 0 = some ⟨"buy milk", true, "u1"⟩ ∧
      (∀ j, j ≠ 0 → dbGet db2 j = dbGet
        { recs := [(0, ⟨"buy milk", false, "u1"⟩), (1, ⟨"b", true, "u2"⟩)],
          nextId := 2 } j) :=
  update_idempotent
    { recs := [(0, ⟨"buy milk", false, "u1"⟩), (1, ⟨"b", true, "u2"⟩)],
      nextId := 2 } 0 true "u1" ⟨"buy milk", false, "u1"⟩ rfl rfl

/-- C9 counterexample: the server-derived resolver is not injective — the two
distinct credential identities with token identifiers `a|x` and `b|x` resolve
to the same identifier `x`, so two different caller identities can resolve to
the same id. -/
theorem getAuthenticatedClerkId_collision :
    ServerTasks.getAuthenticatedClerkId (some ⟨"a|x"⟩) =
        ServerTasks.getAuthenticatedClerkId (some ⟨"b|x"⟩) ∧
    (⟨"a|x"⟩ : UserIdentity) ≠ ⟨"b|x"⟩ ∧
    ServerTasks.getAuthenticatedClerkId (some ⟨"a|x"⟩) = .ok (some "x") :=
  ⟨rfl, by decide, rfl⟩

/-- C9 amended: the resolver is a pure function of the token identifier (so
the same credential always resolves to the same id), and on token identifiers
of the Clerk shape `issuer|subject`, with issuer and subject free of the
separator, it resolves to exactly the subject; consequently two such
credentials resolve to the same id only when their subjects coincide — but
distinct token identifiers with different issuers and the same subject do
collide, so injectivity holds only subject-wise, not per credential. -/
theorem getAuthenticatedClerkId_stable (iss sub : String)
    (hiss : Char.ofNat 124 ∉ iss.data) (hsub : Char.ofNat 124 ∉ sub.data) :
    ServerTasks.getAuthenticatedClerkId (some ⟨iss ++ "|" ++ sub⟩) =
        .ok (some sub) ∧
    (∀ iss2 sub2 : String, Char.ofNat 124 ∉ iss2.data →
      Char.ofNat 124 ∉ sub2.data →
      ServerTasks.getAuthenticatedClerkId (some ⟨iss ++ "|" ++ sub⟩) =
        ServerTasks.getAuthenticatedClerkId (some ⟨iss2 ++ "|" ++ sub2⟩) →
      sub = sub2) := by
  have key : ∀ a b : String, Char.ofNat 124 ∉ a.data →
      Char.ofNat 124 ∉ b.data →
      ServerTasks.getAuthenticatedClerkId (some ⟨a ++ "|" ++ b⟩) =
        .ok (some b) := by
    intro a b ha hb
    unfold ServerTasks.getAuthenticatedClerkId
    have hdata : (a ++ "|" ++ b).data = a.data ++ Char.ofNat 124 :: b.data := by
      simp [String.data_append]
    simp only [hdata, jsSplit_sep_append (Char.ofNat 124) a.data b.data ha,
      jsSplit_no_sep (Char.ofNat 124) b.data hb]
    simp only [List.get?, Option.map_some]
    cases b with
    | mk d => rfl
  refine ⟨key iss sub hiss hsub, ?_⟩
  intro iss2 sub2 hiss2 hsub2 heq
  rw [key iss sub hiss hsub, key iss2 sub2 hiss2 hsub2] at heq
  simpa using heq

/-- Witness for C9 (amended): the credential `issA|u1` resolves to `u1`, and
it resolves equally to `issB|u1`, forcing equal subjects. -/
theorem getAuthenticatedClerkId_stable_witness :
    ServerTasks.getAuthenticatedClerkId (some ⟨"issA" ++ "|" ++ "u1"⟩) =
        .ok (some "u1") ∧
    ("u1" : String) = "u1" := by
  have h := getAuthenticatedClerkId_stable "issA" "u1" (by decide) (by decide)
  exact ⟨h.1, h.2 "issB" "u1" (by decide) (by decide) rfl⟩

/-- C10: the server-derived identity resolver raises the Unauthenticated
error exactly when no identity is present: with an identity present it always
succeeds, and when the token identifier contains no separator,
`split('|')[1]` is `undefined` (modelled `none`), which is returned without
any error — so a subsequent operation such as the list query still proceeds
and succeeds with that undefined caller id. -/
theorem getAuthenticatedClerkId_unauth_only :
    ServerTasks.getAuthenticatedClerkId none = .error "Not authenticated" ∧
    (∀ ident : UserIdentity, ∃ r,
      ServerTasks.getAuthenticatedClerkId (some ident) = .ok r) ∧
    (∀ t : String, Char.ofNat 124 ∉ t.data →
      ServerTasks.getAuthenticatedClerkId (some ⟨t⟩) = .ok none) ∧
    (∀ t : String, Char.ofNat 124 ∉ t.data → ∀ db : Db, ∃ l,
      ServerTasks.get (some ⟨t⟩) db = .ok l) := by
  have hnone : ∀ t : String, Char.ofNat 124 ∉ t.data →
      ServerTasks.getAuthenticatedClerkId (some ⟨t⟩) = .ok none := by
    intro t ht
    unfold ServerTasks.getAuthenticatedClerkId
    simp only [jsSplit_no_sep (Char.ofNat 124) t.data ht]
    rfl
  refine ⟨rfl, fun ident => ⟨_, rfl⟩, hnone, ?_⟩
  intro t ht db
  refine ⟨(db.recs.filter
    (fun p => some p.2.user_id = (none : Option String))).map (fun p => p.2),
    ?_⟩
  unfold ServerTasks.get
  rw [hnone t ht]

/-- Witness for C10: the token identifier `user123` has no separator; the
resolver returns `undefined` without error and the list query still succeeds
on the empty store. -/
theorem getAuthenticatedClerkId_unauth_only_witness :
    ServerTasks.getAuthenticatedClerkId (some ⟨"user123"⟩) = .ok none ∧
    (∃ l, ServerTasks.get (some ⟨"user123"⟩) dbEmpty = .ok l) :=
  ⟨getAuthenticatedClerkId_unauth_only.2.2.1 "user123" (by decide),
   getAuthenticatedClerkId_unauth_only.2.2.2 "user123" (by decide) dbEmpty⟩
